import Mathlib

/-
Verification of the natural-language specification of `server.py`, a minimal
HTTP server (static files + a small REST API over an in-memory user store).

The Python source is shallowly embedded:
  * JSON values are the inductive `Json` (numbers as `Int`; the claims under
    study never involve fractional JSON numbers).
  * Python's duck-typed operations `key in data`, `data[key]` and
    `data.get(key, default)` are embedded as `pyIn`, `pySubscript`, `pyGet`
    returning `Except PyErr _`; a `.error` value models an uncaught Python
    exception escaping the handler (the stdlib `socketserver` then logs it and
    closes the connection without sending any response).
  * `int(...)` applied to a string is embedded as `pyInt` (optional surrounding
    whitespace, optional sign, decimal digits with single underscores allowed
    between digits).
  * Filesystem paths are lists of segments; `os.path.abspath`'s purely lexical
    normalisation (it does not resolve symlinks) is `normSegs`; the string
    rendering used by the `startswith` containment check is `renderAbs`.
  * The process' current directory and the filesystem contents are explicit
    parameters (`cwd`, `FS`); the wall clock is a parameter `clk : Nat → Int`
    giving the instant observed by the n-th clock read of a request.
  * The global mutable store (`USERS`, `NEXT_USER_ID`) is an explicit `Store`
    value threaded through the handlers.
-/

set_option autoImplicit false

namespace HttpServer

/-- JSON values as produced by `json.loads`. -/
inductive Json where
  | null
  | bool (b : Bool)
  | num (n : Int)
  | str (s : String)
  | arr (xs : List Json)
  | obj (kvs : List (String × Json))

/-- Python exceptions that the embedded operations can raise. -/
inductive PyErr where
  | typeError
  | keyError
  | attributeError
deriving DecidableEq

/-- Substring test helper: does `hay` begin with `needle`? -/
def startsL : List Char → List Char → Bool
  | _, [] => true
  | [], _ :: _ => false
  | a :: as, b :: bs => a == b && startsL as bs

/-- Does `hay` contain `needle` as a contiguous substring? -/
def containsL (hay needle : List Char) : Bool :=
  match hay with
  | [] => needle.isEmpty
  | _ :: t => startsL hay needle || containsL t needle

/-- `a.startswith(b)` on strings. -/
def sWith (s p : String) : Bool := startsL s.data p.data

/-- Substring membership, Python's `needle in hay` on strings. -/
def containsStr (hay needle : String) : Bool := containsL hay.data needle.data

/-- Python's `key in data` for a `str` key: dict key membership, substring
test on strings, element equality on lists; `TypeError` on non-containers
(`int`, `float`, `bool`, `None`). -/
def pyIn (key : String) : Json → Except PyErr Bool
  | .obj kvs => .ok ((kvs.find? (fun p => p.1 == key)).isSome)
  | .str s => .ok (containsL s.data key.data)
  | .arr xs => .ok (xs.any (fun j => match j with | .str s => s == key | _ => false))
  | _ => .error .typeError

/-- Python's `data[key]` for a `str` key: dict lookup (`KeyError` when the key
is absent); `TypeError` on a `str` or `list` (string/list indices must be
integers) and on all other values. -/
def pySubscript : Json → String → Except PyErr Json
  | .obj kvs, key =>
    match kvs.find? (fun p => p.1 == key) with
    | some p => .ok p.2
    | none => .error .keyError
  | _, _ => .error .typeError

/-- Python's `data.get(key, default)`: only dicts have `.get`
(`AttributeError` otherwise). -/
def pyGet : Json → String → Json → Except PyErr Json
  | .obj kvs, key, dflt =>
    .ok (((kvs.find? (fun p => p.1 == key)).map (fun p => p.2)).getD dflt)
  | _, _, _ => .error .attributeError

/-- Split a character list on a separator character, Python `s.split(sep)`:
`splitOnChar '/' "a/b".data = ["a".data, "b".data]`, and splitting the empty
string yields one empty group. -/
def splitOnChar (sep : Char) : List Char → List (List Char)
  | [] => [[]]
  | c :: cs =>
    let r := splitOnChar sep cs
    if c == sep then [] :: r
    else
      match r with
      | [] => [[c]]
      | g :: gs => (c :: g) :: gs

/-- `path.split('/')[-1]`: the trailing `/`-separated segment. -/
def lastSeg (path : String) : String :=
  ⟨(splitOnChar '/' path.data).getLastD []⟩

/-- ASCII whitespace stripped by Python's `int(str)` (the real `int` also
strips some Unicode whitespace; the claims only involve ASCII segments). -/
def isWs (c : Char) : Bool :=
  c == ' ' || c == '\t' || c == '\n' || c == '\r' || c == '\x0b' || c == '\x0c'

def dval (c : Char) : Nat := c.toNat - '0'.toNat

/-- Digit-run value for `int(str)` after the first digit: single underscores
are permitted between digits only. -/
def digitsValAux : Nat → List Char → Option Nat
  | acc, [] => some acc
  | _, ['_'] => none
  | acc, '_' :: c :: rest =>
    if c.isDigit then digitsValAux (acc * 10 + dval c) rest else none
  | acc, c :: rest =>
    if c.isDigit then digitsValAux (acc * 10 + dval c) rest else none

/-- Value of a digit run (must be nonempty and start with a digit). -/
def digitsVal : List Char → Option Nat
  | [] => none
  | c :: rest => if c.isDigit then digitsValAux (dval c) rest else none

/-- Python's `int(s)` on a string: strip whitespace, optional sign, decimal
digits with optional single underscores between digits; `none` models
`ValueError`. -/
def pyInt (s : String) : Option Int :=
  let cs := ((s.data.dropWhile isWs).reverse.dropWhile isWs).reverse
  match cs with
  | '+' :: rest => (digitsVal rest).map (fun n => (n : Int))
  | '-' :: rest => (digitsVal rest).map (fun n => -(n : Int))
  | rest => (digitsVal rest).map (fun n => (n : Int))

/-- A user record. Every element ever stored in `USERS` is a dict with exactly
the keys `id`, `name`, `email`, `role` (the seeds and every dict built by
`handle_api_post`), so the store is embedded with this record type; `id` is an
`Int` and the remaining values are arbitrary JSON (the code does not validate
their types). -/
structure User where
  id : Int
  name : Json
  email : Json
  role : Json

/-- The globals `USERS` and `NEXT_USER_ID` as one explicit state. -/
structure Store where
  users : List User
  next_id : Int

/-- The seeded store: users 1–3 and `NEXT_USER_ID = 4`. -/
def seededStore : Store :=
  ⟨[⟨1, .str "Alice Johnson", .str "alice@example.com", .str "admin"⟩,
    ⟨2, .str "Bob Smith", .str "bob@example.com", .str "user"⟩,
    ⟨3, .str "Carol White", .str "carol@example.com", .str "user"⟩], 4⟩

def userToJson (u : User) : Json :=
  .obj [("id", .num u.id), ("name", u.name), ("email", u.email), ("role", u.role)]

/-- The error envelope built by `send_error_response`. -/
def errEnv (status : Nat) (message : String) : Json :=
  .obj [("error", .bool true), ("status_code", .num status), ("message", .str message)]

/-- A response as sent on the wire: a JSON body with a status code
(`send_json_response`), raw file bytes with a content type (static serving),
the bodyless CORS preflight reply, or the base `BaseHTTPRequestHandler` error
page (HTML, not a JSON envelope) sent for unsupported methods. -/
inductive HResp where
  | json (status : Nat) (body : Json)
  | raw (status : Nat) (ctype : String) (content : String)
  | cors
  | baseErr (status : Nat)

def respStatus : HResp → Nat
  | .json c _ => c
  | .raw c _ _ => c
  | .cors => 200
  | .baseErr c => c

/-- `send_error_response status message` as a full response. -/
def envErrResp (status : Nat) (message : String) : HResp :=
  .json status (errEnv status message)

/-- Lookup of a key in a JSON object. -/
def jLookup (key : String) : Json → Option Json
  | .obj kvs => (kvs.find? (fun p => p.1 == key)).map (fun p => p.2)
  | _ => none

/-- Top-level field of a JSON response body. -/
def respField (key : String) (r : HResp) : Option Json :=
  match r with
  | .json _ b => jLookup key b
  | _ => none

/-- The `id` of the `user` record inside a response body. -/
def respCreatedId (r : HResp) : Option Int :=
  match r with
  | .json _ b =>
    match jLookup "user" b with
    | some uj =>
      match jLookup "id" uj with
      | some (.num i) => some i
      | _ => none
    | none => none
  | _ => none

/-- The instant carried by one field of the `/api/time` payload. -/
def respTimeField (key : String) (r : HResp) : Option Int :=
  match r with
  | .json _ b =>
    match jLookup "time" b with
    | some tb =>
      match jLookup key tb with
      | some (.num i) => some i
      | _ => none
    | none => none
  | _ => none

/-- The `/api/time` branch of `handle_api_get`. The dict literal evaluates
`datetime.now().isoformat()`, then `time.time()`, then
`datetime.now().strftime(...)`: three successive, independent clock reads
(indices 0, 1, 2 of `clk`). Each of the three renderings is an injective
function of the instant read, so the embedding carries the instants
themselves in place of the rendered strings/floats. -/
def handle_api_time (clk : Nat → Int) : HResp :=
  .json 200 (.obj [("success", .bool true),
    ("time", .obj [("iso", .num (clk 0)), ("timestamp", .num (clk 1)),
                   ("readable", .num (clk 2))])])

/-- `handle_api_get`: routes `GET /api/...` paths exactly as the source does
(`/api/users` list, `/api/users/<id>` lookup via `int(path.split('/')[-1])`,
`/api/time`, otherwise a 404 naming the path). -/
def handle_api_get (path : String) (s : Store) (clk : Nat → Int) : HResp :=
  if path == "/api/users" then
    .json 200 (.obj [("success", .bool true), ("count", .num s.users.length),
                     ("users", .arr (s.users.map userToJson))])
  else if sWith path "/api/users/" then
    match pyInt (lastSeg path) with
    | none => envErrResp 400 "Invalid user ID format"
    | some uid =>
      match s.users.find? (fun u => u.id == uid) with
      | some u => .json 200 (.obj [("success", .bool true), ("user", userToJson u)])
      | none => envErrResp 404 ("User with ID " ++ toString uid ++ " not found")
  else if path == "/api/time" then
    handle_api_time clk
  else
    envErrResp 404 ("API endpoint not found: " ++ path)

def createdEnv (u : User) : Json :=
  .obj [("success", .bool true), ("message", .str "User created successfully"),
        ("user", userToJson u)]

/-- `handle_api_post`: `data` is the result of `read_json_body` (parsed JSON,
or `none` when the body was absent or not valid JSON). The field checks and
accesses mirror the source statement by statement, including Python's
short-circuit in `'name' not in data or 'email' not in data` and the
speculative `data['name']` / `data['email']` / `data.get('role', 'user')`
accesses; a `.error` result is an uncaught exception. -/
def handle_api_post (path : String) (data : Option Json) (s : Store) :
    Except PyErr (HResp × Store) :=
  if path == "/api/users" then
    match data with
    | none => .ok (envErrResp 400 "Invalid JSON in request body", s)
    | some d =>
      match pyIn "name" d with
      | .error e => .error e
      | .ok hn =>
        if !hn then .ok (envErrResp 400 "Missing required fields: name, email", s)
        else
          match pyIn "email" d with
          | .error e => .error e
          | .ok he =>
            if !he then .ok (envErrResp 400 "Missing required fields: name, email", s)
            else
              match pySubscript d "name" with
              | .error e => .error e
              | .ok nm =>
                match pySubscript d "email" with
                | .error e => .error e
                | .ok em =>
                  match pyGet d "role" (.str "user") with
                  | .error e => .error e
                  | .ok role =>
                    let u : User := ⟨s.next_id, nm, em, role⟩
                    .ok (.json 201 (createdEnv u), ⟨s.users ++ [u], s.next_id + 1⟩)
  else
    .ok (envErrResp 404 ("API endpoint not found: " ++ path), s)

/-! Static file serving. Paths are lists of segments rooted at `/`. -/

/-- Lexical normalisation performed by `os.path.abspath` on an absolute path:
empty and `.` segments are dropped, `..` pops the previous segment (and is
dropped at the root). Symlinks are NOT resolved, matching `abspath`. -/
def normStep (acc : List String) (seg : String) : List String :=
  if seg = "" || seg = "." then acc
  else if seg = ".." then acc.dropLast
  else acc ++ [seg]

def normSegs (segs : List String) : List String := segs.foldl normStep []

/-- Segments of a path string. -/
def segsOf (p : String) : List String :=
  (splitOnChar '/' p.data).map (fun cs => ⟨cs⟩)

/-- Render an absolute segment path as the string `os.path` functions return. -/
def renderAbs (segs : List String) : String :=
  match segs with
  | [] => "/"
  | _ => segs.foldl (fun acc seg => acc ++ "/" ++ seg) ""

/-- Is `root` an ancestor-or-self of `p`, segment-wise? This is the claim's
notion of "inside the root directory" (it is NOT what the code checks; the
code compares rendered strings with `startswith`). -/
def segsUnder : List String → List String → Bool
  | [], _ => true
  | _ :: _, [] => false
  | a :: as, b :: bs => a == b && segsUnder as bs

/-- A filesystem: a set of directories and a map from file paths (normalised
segment lists) to their contents. -/
structure FS where
  dirs : List (List String)
  files : List (List String × String)

def FS.isDir (fs : FS) (p : List String) : Bool := fs.dirs.contains p

def FS.readFile (fs : FS) (p : List String) : Option String :=
  (fs.files.find? (fun q => q.1 == p)).map (fun q => q.2)

def FS.pathExists (fs : FS) (p : List String) : Bool :=
  fs.isDir p || (fs.readFile p).isSome

/-- The `content_types` table of `serve_static_file`. -/
def contentTypes : List (String × String) :=
  [(".html", "text/html"), (".css", "text/css"), (".js", "application/javascript"),
   (".json", "application/json"), (".png", "image/png"), (".jpg", "image/jpeg"),
   (".gif", "image/gif"), (".svg", "image/svg+xml")]

/-- The suffix of `cs` starting at its last `.`, if any. -/
def afterLastDot : List Char → Option (List Char)
  | [] => none
  | c :: t =>
    match afterLastDot t with
    | some e => some e
    | none => if c == '.' then some (c :: t) else none

/-- `os.path.splitext(...)[1]`: the extension starts at the last dot of the
basename, except that leading dots never start an extension. -/
def extOf (basename : List Char) : List Char :=
  let lead := basename.takeWhile (fun c => c == '.')
  match afterLastDot (basename.drop lead.length) with
  | some e => e
  | none => []

/-- Content type chosen for a resolved path: extension lookup, lowercased,
falling back to a generic binary type. -/
def contentTypeOf (segs : List String) : String :=
  let ext : String := ⟨(extOf (segs.getLastD "").data).map Char.toLower⟩
  ((contentTypes.find? (fun p => p.1 == ext)).map (fun p => p.2)).getD
    "application/octet-stream"

/-- `serve_static_file`: joins the request path onto `os.path.abspath('public')`
(computed from the process working directory `cwd`), normalises lexically, and
rejects with 403 exactly when the rendered absolute path does not satisfy the
STRING `startswith` check against the rendered root — faithfully including the
absence of a trailing-separator guard. Directories are retargeted to their
`index.html` before the existence check; a failed read of an existing path is
the 500 branch. -/
def serve_static_file (cwd : List String) (fs : FS) (filepath : String) : HResp :=
  let pub := normSegs (cwd ++ ["public"])
  -- os.path.join(public_dir, filepath): an absolute filepath replaces the root
  let requested :=
    if sWith filepath "/" then normSegs (segsOf filepath)
    else normSegs (pub ++ segsOf filepath)
  if !(startsL (renderAbs requested).data (renderAbs pub).data) then
    envErrResp 403 "Access denied"
  else
    let requested2 := if fs.isDir requested then requested ++ ["index.html"] else requested
    if !(fs.pathExists requested2) then
      envErrResp 404 ("File not found: " ++ filepath)
    else
      match fs.readFile requested2 with
      | some content => .raw 200 (contentTypeOf requested2) content
      | none => envErrResp 500 "Internal server error"

/-- `urlparse(self.path).path`: the path component, i.e. everything before the
first `?` or `#`. -/
def urlPath (s : String) : String :=
  ⟨s.data.takeWhile (fun c => !(c == '?' || c == '#'))⟩

/-- `path.lstrip('/')`. -/
def lstripSlash (s : String) : String := ⟨s.data.dropWhile (fun c => c == '/')⟩

/-- `do_GET`: API paths go to `handle_api_get`, everything else to the static
resolver with the leading slash stripped and an empty path defaulting to
`index.html`. `do_GET` never assigns to the store. -/
def do_GET (rawPath : String) (fs : FS) (cwd : List String) (s : Store)
    (clk : Nat → Int) : HResp :=
  let path := urlPath rawPath
  if sWith path "/api/" then handle_api_get path s clk
  else
    let fp := lstripSlash path
    let fp := if fp == "" then "index.html" else fp
    serve_static_file cwd fs fp

/-- `do_POST`: API paths go to `handle_api_post`; every other path gets the
405 envelope. -/
def do_POST (rawPath : String) (data : Option Json) (s : Store) :
    Except PyErr (HResp × Store) :=
  let path := urlPath rawPath
  if sWith path "/api/" then handle_api_post path data s
  else .ok (envErrResp 405 "Method not allowed for this path", s)

/-- One handled request. The handler class implements only `do_GET`, `do_POST`
and `do_OPTIONS`; for any other method the stdlib `BaseHTTPRequestHandler`
dispatch finds no `do_<METHOD>` attribute and sends its own
`501 Unsupported method` HTML error page (modelled as `HResp.baseErr 501`) —
that branch is stdlib behaviour, not code of `server.py`. -/
def handleRequest (method rawPath : String) (data : Option Json) (fs : FS)
    (cwd : List String) (s : Store) (clk : Nat → Int) :
    Except PyErr (HResp × Store) :=
  if method == "GET" then .ok (do_GET rawPath fs cwd s clk, s)
  else if method == "POST" then do_POST rawPath data s
  else if method == "OPTIONS" then .ok (HResp.cors, s)
  else .ok (HResp.baseErr 501, s)

/-- The store invariant: the next-id counter strictly dominates every stored id. -/
def Inv (s : Store) : Prop := ∀ u ∈ s.users, u.id < s.next_id

instance (s : Store) : Decidable (Inv s) := by
  unfold Inv; infer_instance

/-! Concrete fixtures used by closed theorems. -/

/-- A clock frozen at instant 0. -/
def clk0 : Nat → Int := fun _ => 0

/-- A working directory `/home` with a static root `/home/public` and a sibling
directory `/home/public_evil` whose name shares the root's name as a string
prefix-part. -/
def cwd0 : List String := ["home"]

def fs0 : FS :=
  ⟨[["home", "public"], ["home", "public_evil"]],
   [(["home", "public", "index.html"], "<html>index</html>"),
    (["home", "public_evil", "secret.txt"], "topsecret")]⟩

/-- A strictly advancing clock: the n-th read observes instant n. -/
def advClk : Nat → Int := fun n => n

/-- Valid creation body for user Dan. -/
def danBody : Option Json := some (.obj [("name", .str "Dan"), ("email", .str "dan@x.com")])

/-- Valid creation body for user Eve. -/
def eveBody : Option Json := some (.obj [("name", .str "Eve"), ("email", .str "eve@x.com")])

def danUser : User := ⟨4, .str "Dan", .str "dan@x.com", .str "user"⟩

def eveUser : User := ⟨5, .str "Eve", .str "eve@x.com", .str "user"⟩

/-- The seeded store after creating Dan. -/
def store4 : Store := ⟨seededStore.users ++ [danUser], 5⟩

/-- `store4` after creating Eve. -/
def store5 : Store := ⟨store4.users ++ [eveUser], 6⟩

def danResp : HResp := .json 201 (createdEnv danUser)

def eveResp : HResp := .json 201 (createdEnv eveUser)

/-! Helper lemmas (shared by several claim proofs). -/

lemma startsL_nil (l : List Char) : startsL l [] = true := by
  cases l <;> rfl

lemma startsL_self_append (n s : List Char) : startsL (n ++ s) n = true := by
  induction n with
  | nil => exact startsL_nil s
  | cons c t ih => simp [startsL, ih]

lemma containsL_nil_needle (s : List Char) : containsL s [] = true := by
  induction s with
  | nil => rfl
  | cons c t ih => simp [containsL, startsL_nil, ih]

/-- A list always contains any of its contiguous pieces. -/
lemma containsL_append (p n s : List Char) : containsL (p ++ n ++ s) n = true := by
  induction p with
  | nil =>
    cases n with
    | nil => simpa using containsL_nil_needle s
    | cons c t =>
      simp only [List.nil_append, List.cons_append, containsL, Bool.or_eq_true]
      exact Or.inl (startsL_self_append (c :: t) s)
  | cons c p ih =>
    simp only [List.cons_append, containsL, Bool.or_eq_true]
    exact Or.inr ih

lemma containsStr_append (p n s : String) : containsStr (p ++ n ++ s) n = true := by
  unfold containsStr
  rw [String.data_append, String.data_append]
  exact containsL_append p.data n.data s.data

/-- A path with the `/api/users/` prefix-part is never the exact string
`/api/users`. -/
lemma path_ne_api_users {path : String} (h : sWith path "/api/users/" = true) :
    (path == "/api/users") = false := by
  cases hb : path == "/api/users" with
  | false => rfl
  | true =>
    have hp : path = "/api/users" := eq_of_beq hb
    subst hp
    exact absurd h (by decide)

lemma okInj {a r : HResp} {b s' : Store}
    (h : (Except.ok (a, b) : Except PyErr (HResp × Store)) = .ok (r, s')) :
    a = r ∧ b = s' := by
  injection h with h1
  injection h1 with h2 h3
  exact ⟨h2, h3⟩

/-- Exhaustive characterisation of a non-raising `handle_api_post` call:
either it took the creation branch (201, created id = old counter, one user
appended, counter bumped) or it replied with a non-201 envelope and left the
store untouched. -/
lemma handle_api_post_cases (path : String) (d : Option Json) (s : Store)
    (r : HResp) (s' : Store)
    (h : handle_api_post path d s = .ok (r, s')) :
    (respStatus r = 201 ∧ respCreatedId r = some s.next_id ∧
       s'.users.length = s.users.length + 1 ∧ s'.next_id = s.next_id + 1 ∧
       ∀ u ∈ s'.users, u ∈ s.users ∨ u.id = s.next_id) ∨
    (respStatus r ≠ 201 ∧ s' = s) := by
  unfold handle_api_post at h
  split at h
  · split at h
    · -- data is None: 400
      obtain ⟨hr, hs⟩ := okInj h
      right
      refine ⟨?_, hs.symm⟩
      rw [← hr]; decide
    · -- data parsed
      split at h
      · exact absurd h (by simp)
      · split at h
        · -- missing name: 400
          obtain ⟨hr, hs⟩ := okInj h
          right
          refine ⟨?_, hs.symm⟩
          rw [← hr]; decide
        · split at h
          · exact absurd h (by simp)
          · split at h
            · -- missing email: 400
              obtain ⟨hr, hs⟩ := okInj h
              right
              refine ⟨?_, hs.symm⟩
              rw [← hr]; decide
            · split at h
              · exact absurd h (by simp)
              · split at h
                · exact absurd h (by simp)
                · split at h
                  · exact absurd h (by simp)
                  · -- creation branch: 201
                    obtain ⟨hr, hs⟩ := okInj h
                    left
                    refine ⟨?_, ?_, ?_, ?_, ?_⟩
                    · rw [← hr]; rfl
                    · rw [← hr]; rfl
                    · rw [← hs]; simp
                    · rw [← hs]
                    · intro u hu
                      rw [← hs] at hu
                      rcases List.mem_append.mp hu with hmem | hmem
                      · exact Or.inl hmem
                      · right
                        rw [List.mem_singleton.mp hmem]
  · -- not /api/users: 404
    obtain ⟨hr, hs⟩ := okInj h
    right
    refine ⟨?_, hs.symm⟩
    rw [← hr]
    simp only [envErrResp, respStatus]
    omega

/-! Claim theorems. -/

/-- C1: the claim asserts that whenever canonicalizing the join of the static
root with the requested relative path yields a path outside the root,
`serve_static_file` answers 403 and returns no file content. The code's sole
defense is a raw string `startswith` comparison, so a sibling directory whose
name shares the root's name as a string prefix-part defeats it: for the
request `../public_evil/secret.txt` the canonical path
`/home/public_evil/secret.txt` lies outside the root `/home/public`
(`segsUnder` is false), yet the resolver serves the file with 200 and its
full content instead of 403. -/
theorem traversal_sibling_dir_served :
    segsUnder (normSegs (cwd0 ++ ["public"]))
        (normSegs (normSegs (cwd0 ++ ["public"]) ++ segsOf "../public_evil/secret.txt"))
      = false ∧
    serve_static_file cwd0 fs0 "../public_evil/secret.txt"
      = HResp.raw 200 "application/octet-stream" "topsecret" ∧
    respStatus (serve_static_file cwd0 fs0 "../public_evil/secret.txt") ≠ 403 :=
  ⟨by decide, rfl, by decide⟩

/-- C2: the claim asserts every handled request yields exactly one structured
envelope and that no failure escapes the handler boundary, in particular for
`POST /api/users` with the valid-JSON non-object body `42`. In the code,
`read_json_body` returns the integer `42`, and `'name' not in data` then
raises `TypeError` (`int` is not iterable); nothing in `server.py` catches it,
so no envelope is produced — the embedded request evaluates to an escaped
exception. -/
theorem post_nonobject_body_escapes :
    handleRequest "POST" "/api/users" (some (.num 42)) fs0 cwd0 seededStore clk0
      = .error .typeError :=
  rfl

/-- C3: the claim asserts that every body lacking the required `name`/`email`
fields gets a 400 envelope. For the valid-JSON string body `"name email"`
(which has no fields at all), both membership checks succeed as SUBSTRING
tests, and the code then evaluates `data['name']` on a `str`, raising
`TypeError` instead of returning 400 — the error escapes the handler. -/
theorem post_string_body_escapes :
    pyIn "name" (.str "name email") = .ok true ∧
    pyIn "email" (.str "name email") = .ok true ∧
    handleRequest "POST" "/api/users" (some (.str "name email")) fs0 cwd0 seededStore clk0
      = .error .typeError :=
  ⟨rfl, rfl, rfl⟩

/-- C4: the next-id counter strictly dominates every stored id: it holds for
the seeded store (ids 1–3, counter 4), it is preserved by every handled
request, and two successive successful (201) `POST /api/users` calls return
the old counter values as created ids — strictly increasing — while each call
grows the store by exactly one user. -/
theorem next_id_monotone_invariant :
    Inv seededStore ∧
    (∀ method rawPath d fs cwd s clk r s', Inv s →
      handleRequest method rawPath d fs cwd s clk = .ok (r, s') → Inv s') ∧
    (∀ d₁ d₂ s s₁ s₂ r₁ r₂,
      handle_api_post "/api/users" d₁ s = .ok (r₁, s₁) → respStatus r₁ = 201 →
      handle_api_post "/api/users" d₂ s₁ = .ok (r₂, s₂) → respStatus r₂ = 201 →
      respCreatedId r₁ = some s.next_id ∧ respCreatedId r₂ = some s₁.next_id ∧
      s.next_id < s₁.next_id ∧
      s₁.users.length = s.users.length + 1 ∧
      s₂.users.length = s₁.users.length + 1) := by
  have hpost : ∀ path d s r s', Inv s →
      handle_api_post path d s = .ok (r, s') → Inv s' := by
    intro path d s r s' hInv h
    rcases handle_api_post_cases path d s r s' h with
      ⟨_, _, _, hnext, hmem⟩ | ⟨_, hss⟩
    · intro u hu
      rw [hnext]
      rcases hmem u hu with hold | hnew
      · exact lt_trans (hInv u hold) (lt_add_one _)
      · rw [hnew]; exact lt_add_one _
    · rw [hss]; exact hInv
  refine ⟨by decide, ?_, ?_⟩
  · intro method rawPath d fs cwd s clk r s' hInv h
    unfold handleRequest at h
    split at h
    · obtain ⟨_, hs⟩ := okInj h
      rw [← hs]; exact hInv
    · split at h
      · unfold do_POST at h
        dsimp only at h
        split at h
        · exact hpost _ d s r s' hInv h
        · obtain ⟨_, hs⟩ := okInj h
          rw [← hs]; exact hInv
      · split at h
        · obtain ⟨_, hs⟩ := okInj h
          rw [← hs]; exact hInv
        · obtain ⟨_, hs⟩ := okInj h
          rw [← hs]; exact hInv
  · intro d₁ d₂ s s₁ s₂ r₁ r₂ h₁ hst₁ h₂ hst₂
    rcases handle_api_post_cases _ d₁ s r₁ s₁ h₁ with
      ⟨_, hid₁, hlen₁, hnext₁, _⟩ | ⟨hne, _⟩
    · rcases handle_api_post_cases _ d₂ s₁ r₂ s₂ h₂ with
        ⟨_, hid₂, hlen₂, _, _⟩ | ⟨hne, _⟩
      · exact ⟨hid₁, hid₂, by rw [hnext₁]; exact lt_add_one _, hlen₁, hlen₂⟩
      · exact absurd hst₂ hne
    · exact absurd hst₁ hne

/-- C4 witness: concrete run on the seeded store — creating Dan then Eve
returns created ids 4 then 5, each call adding exactly one user. -/
theorem next_id_monotone_invariant_witness :
    Inv seededStore ∧ Inv store4 ∧
    respCreatedId danResp = some seededStore.next_id ∧
    respCreatedId eveResp = some store4.next_id ∧
    seededStore.next_id < store4.next_id ∧
    store4.users.length = seededStore.users.length + 1 ∧
    store5.users.length = store4.users.length + 1 := by
  have h₁ : handle_api_post "/api/users" danBody seededStore = .ok (danResp, store4) := rfl
  have h₂ : handle_api_post "/api/users" eveBody store4 = .ok (eveResp, store5) := rfl
  have hinv4 : Inv store4 :=
    next_id_monotone_invariant.2.1 "POST" "/api/users" danBody fs0 cwd0 seededStore clk0
      danResp store4 (by decide) (by rfl)
  obtain ⟨c1, c2, c3, c4, c5⟩ :=
    next_id_monotone_invariant.2.2 danBody eveBody seededStore store4 store5 danResp eveResp
      h₁ (by rfl) h₂ (by rfl)
  exact ⟨next_id_monotone_invariant.1, hinv4, c1, c2, c3, c4, c5⟩

/-- C5: for `GET /api/users/<...>` the trailing segment decides the outcome —
unparseable as an integer gives the 400 envelope, a parsed id present in the
store gives 200 with that user's record, and a parsed id absent from the store
gives 404 with a message containing the decimal rendering of the id. -/
theorem get_user_by_id_trichotomy (path : String) (s : Store) (clk : Nat → Int)
    (hp : sWith path "/api/users/" = true) :
    (pyInt (lastSeg path) = none →
      handle_api_get path s clk = envErrResp 400 "Invalid user ID format") ∧
    (∀ uid u, pyInt (lastSeg path) = some uid →
      s.users.find? (fun v => v.id == uid) = some u →
      handle_api_get path s clk
        = .json 200 (.obj [("success", .bool true), ("user", userToJson u)])) ∧
    (∀ uid, pyInt (lastSeg path) = some uid →
      s.users.find? (fun v => v.id == uid) = none →
      handle_api_get path s clk
          = envErrResp 404 ("User with ID " ++ toString uid ++ " not found") ∧
        containsStr ("User with ID " ++ toString uid ++ " not found") (toString uid)
          = true) := by
  have hne := path_ne_api_users hp
  have hbase : handle_api_get path s clk =
      match pyInt (lastSeg path) with
      | none => envErrResp 400 "Invalid user ID format"
      | some uid =>
        match s.users.find? (fun v => v.id == uid) with
        | some u => .json 200 (.obj [("success", .bool true), ("user", userToJson u)])
        | none => envErrResp 404 ("User with ID " ++ toString uid ++ " not found") := by
    unfold handle_api_get
    rw [hne, hp]
    simp
  refine ⟨?_, ?_, ?_⟩
  · intro hnone
    rw [hbase, hnone]
  · intro uid u hsome hfind
    rw [hbase, hsome]
    simp only [hfind]
  · intro uid hsome hfind
    refine ⟨by rw [hbase, hsome]; simp only [hfind], ?_⟩
    exact containsStr_append "User with ID " (toString uid) " not found"

/-- C5 witness: `GET /api/users/99` on the seeded store falls in the
absent-id branch — 404 with a message containing `99`. -/
theorem get_user_by_id_trichotomy_witness :
    sWith "/api/users/99" "/api/users/" = true ∧
    pyInt (lastSeg "/api/users/99") = some 99 ∧
    seededStore.users.find? (fun v => v.id == (99 : Int)) = none ∧
    (handle_api_get "/api/users/99" seededStore clk0
        = envErrResp 404 ("User with ID " ++ toString (99 : Int) ++ " not found") ∧
      containsStr ("User with ID " ++ toString (99 : Int) ++ " not found")
        (toString (99 : Int)) = true) := by
  refine ⟨by decide, by decide, rfl, ?_⟩
  exact (get_user_by_id_trichotomy "/api/users/99" seededStore clk0 (by decide)).2.2
    99 (by decide) rfl

/-- C6: a `POST /api/users` body parsing to a JSON object without an `email`
key is rejected with the 400 envelope and the store — user list and counter —
is returned exactly as it was (error atomicity). -/
theorem post_missing_email_atomic (s : Store) (kvs : List (String × Json))
    (h : kvs.find? (fun p => p.1 == "email") = none) :
    handle_api_post "/api/users" (some (.obj kvs)) s
      = .ok (envErrResp 400 "Missing required fields: name, email", s) := by
  have hbase : handle_api_post "/api/users" (some (.obj kvs)) s =
      (if !(kvs.find? (fun p => p.1 == "name")).isSome then
        (.ok (envErrResp 400 "Missing required fields: name, email", s) :
          Except PyErr (HResp × Store))
      else if !(kvs.find? (fun p => p.1 == "email")).isSome then
        .ok (envErrResp 400 "Missing required fields: name, email", s)
      else
        match pySubscript (.obj kvs) "name" with
        | .error e => .error e
        | .ok nm =>
          match pySubscript (.obj kvs) "email" with
          | .error e => .error e
          | .ok em =>
            match pyGet (.obj kvs) "role" (.str "user") with
            | .error e => .error e
            | .ok role =>
              let u : User := ⟨s.next_id, nm, em, role⟩
              .ok (.json 201 (createdEnv u), ⟨s.users ++ [u], s.next_id + 1⟩)) := rfl
  rw [hbase]
  cases hn : (kvs.find? (fun p => p.1 == "name")).isSome with
  | false => simp
  | true => simp [h]

/-- C6 witness: the concrete body `{"name": "Dan"}` on the seeded store. -/
theorem post_missing_email_atomic_witness :
    ([(("name" : String), Json.str "Dan")].find? (fun p => p.1 == "email") = none) ∧
    handle_api_post "/api/users" (some (.obj [("name", .str "Dan")])) seededStore
      = .ok (envErrResp 400 "Missing required fields: name, email", seededStore) :=
  ⟨rfl, post_missing_email_atomic seededStore [("name", .str "Dan")] rfl⟩

/-- C7: the claim asserts every method other than GET/OPTIONS gets a 405
envelope on non-API paths. Only `do_GET`, `do_POST` and `do_OPTIONS` are
implemented, so a `PUT` request — any path — is answered by the stdlib base
handler's `501 Unsupported method` page, not the 405 envelope. -/
theorem put_non_api_not_405 :
    handleRequest "PUT" "/somefile.txt" none fs0 cwd0 seededStore clk0
      = .ok (HResp.baseErr 501, seededStore) ∧
    respStatus (HResp.baseErr 501) ≠ 405 :=
  ⟨rfl, by decide⟩

/-- C7 (amended): only `POST` — the one implemented method besides GET and
OPTIONS — yields the 405 envelope on non-API paths; every unimplemented
method yields the base handler's 501 error page regardless of path. -/
theorem method_dispatch_amended :
    (∀ rawPath d s, sWith (urlPath rawPath) "/api/" = false →
      do_POST rawPath d s
        = .ok (envErrResp 405 "Method not allowed for this path", s)) ∧
    (∀ method rawPath d fs cwd s clk,
      (method == "GET") = false → (method == "POST") = false →
      (method == "OPTIONS") = false →
      handleRequest method rawPath d fs cwd s clk = .ok (HResp.baseErr 501, s)) := by
  constructor
  · intro rawPath d s hp
    unfold do_POST
    dsimp only
    rw [hp]
    simp
  · intro method rawPath d fs cwd s clk h1 h2 h3
    unfold handleRequest
    rw [h1, h2, h3]
    simp

/-- C7 amended witness: `POST /file.txt` gets the 405 envelope and
`DELETE /file.txt` gets the base 501 page. -/
theorem method_dispatch_amended_witness :
    do_POST "/file.txt" none seededStore
      = .ok (envErrResp 405 "Method not allowed for this path", seededStore) ∧
    handleRequest "DELETE" "/file.txt" none fs0 cwd0 seededStore clk0
      = .ok (HResp.baseErr 501, seededStore) :=
  ⟨method_dispatch_amended.1 "/file.txt" none seededStore (by decide),
   method_dispatch_amended.2 "DELETE" "/file.txt" none fs0 cwd0 seededStore clk0
     (by decide) (by decide) (by decide)⟩

/-- C8: the claim asserts the three time representations come from a single
clock reading, so iso and epoch always denote the same instant. The dict
literal performs three separate reads (`datetime.now()`, `time.time()`,
`datetime.now()`); under a clock that advances between reads the iso and
epoch fields denote different instants. -/
theorem time_reads_diverge :
    respTimeField "iso" (handle_api_time advClk) = some 0 ∧
    respTimeField "timestamp" (handle_api_time advClk) = some 1 ∧
    respTimeField "iso" (handle_api_time advClk)
      ≠ respTimeField "timestamp" (handle_api_time advClk) :=
  ⟨rfl, rfl, by decide⟩

/-- C8 (amended): the `/api/time` payload carries the instants of three
successive independent clock reads in the order iso, epoch, readable; when
the clock does not advance during the call all three denote the same
instant. -/
theorem time_three_reads_consistent_when_frozen :
    (∀ clk : Nat → Int,
      respTimeField "iso" (handle_api_time clk) = some (clk 0) ∧
      respTimeField "timestamp" (handle_api_time clk) = some (clk 1) ∧
      respTimeField "readable" (handle_api_time clk) = some (clk 2)) ∧
    (∀ t : Int, handle_api_time (fun _ => t)
      = .json 200 (.obj [("success", .bool true),
          ("time", .obj [("iso", .num t), ("timestamp", .num t),
                         ("readable", .num t)])])) :=
  ⟨fun _ => ⟨rfl, rfl, rfl⟩, fun _ => rfl⟩

/-- C9: `GET /api/users` leaves the store untouched, so consecutive calls with
no intervening POST return identical envelopes, whose `count` field equals the
length of the returned user list. -/
theorem get_users_idempotent (s : Store) (c₁ c₂ : Nat → Int) (fs : FS)
    (cwd : List String) :
    handleRequest "GET" "/api/users" none fs cwd s c₁
      = .ok (handle_api_get "/api/users" s c₁, s) ∧
    handle_api_get "/api/users" s c₁ = handle_api_get "/api/users" s c₂ ∧
    respField "count" (handle_api_get "/api/users" s c₁)
      = some (.num s.users.length) ∧
    respField "users" (handle_api_get "/api/users" s c₁)
      = some (.arr (s.users.map userToJson)) ∧
    (s.users.map userToJson).length = s.users.length :=
  ⟨rfl, rfl, rfl, rfl, by simp⟩

/-- C10: under `/api/users/` only the final `/`-separated segment is read as
the id: `/api/users/1/posts` and the bare `/api/users/` both land in the
id-parsing 400 branch (not the generic unmatched-endpoint 404), while a
negative final segment such as `-1` parses as a valid integer id and proceeds
to the store lookup (404 naming `-1` when absent, 200 when present). -/
theorem trailing_segment_parsing :
    (∀ s clk, handle_api_get "/api/users/1/posts" s clk
      = envErrResp 400 "Invalid user ID format") ∧
    (∀ s clk, handle_api_get "/api/users/" s clk
      = envErrResp 400 "Invalid user ID format") ∧
    pyInt "-1" = some (-1) ∧
    (∀ s clk, s.users.find? (fun v => v.id == (-1 : Int)) = none →
      handle_api_get "/api/users/-1" s clk
        = envErrResp 404 "User with ID -1 not found") ∧
    (∀ s clk u, s.users.find? (fun v => v.id == (-1 : Int)) = some u →
      handle_api_get "/api/users/-1" s clk
        = .json 200 (.obj [("success", .bool true), ("user", userToJson u)])) := by
  have hbase : ∀ s clk, handle_api_get "/api/users/-1" s clk =
      match s.users.find? (fun v => v.id == (-1 : Int)) with
      | some u => .json 200 (.obj [("success", .bool true), ("user", userToJson u)])
      | none => envErrResp 404 ("User with ID " ++ toString (-1 : Int) ++ " not found") :=
    fun s clk => rfl
  refine ⟨fun s clk => rfl, fun s clk => rfl, rfl, ?_, ?_⟩
  · intro s clk hfind
    rw [hbase, hfind]
    rfl
  · intro s clk u hfind
    rw [hbase, hfind]

/-- C10 witness: on the seeded store, id `-1` is absent, so the path whose
trailing segment is `-1` reaches the lookup and yields the 404 naming it. -/
theorem trailing_segment_parsing_witness :
    (seededStore.users.find? (fun v => v.id == (-1 : Int)) = none) ∧
    handle_api_get "/api/users/-1" seededStore clk0
      = envErrResp 404 "User with ID -1 not found" :=
  ⟨rfl, trailing_segment_parsing.2.2.2.1 seededStore clk0 rfl⟩

end HttpServer
